import Mathlib

/-!
Shallow embedding of the video-analysis pipeline
(src/video_processor.py, src/ai_analyzer.py, src/main.py).

External effects (the filesystem listing produced by ffmpeg, the
inference API, file reads) are parameters of the embedded functions;
everything the Python functions compute from those inputs is embedded
faithfully.  Python floats are modelled as rationals; a Python function
that may raise is modelled with `Except`, where `.error` means an
exception propagating to the caller.
-/

namespace VideoAnalysis

/-! ### Python string / path primitives used by video_processor.py

All primitives are structurally recursive over character lists so that
closed instances reduce inside the kernel. -/

/-- Split a character list at every occurrence of `sep`, keeping empty
pieces, exactly like Python `str.split(sep)` with a one-character
separator: the empty string yields one empty piece. -/
def splitChar (sep : Char) : List Char → List (List Char)
  | [] => [[]]
  | c :: cs =>
    match splitChar sep cs with
    | [] => if c = sep then [[], []] else [[c]]
    | h :: t => if c = sep then [] :: h :: t else (c :: h) :: t

/-- Python `s.split(sep)` for a one-character separator. -/
def pySplit (sep : Char) (s : String) : List String :=
  (splitChar sep s.toList).map String.mk

/-- Strip leading and trailing whitespace from a character list. -/
def trimChars (cs : List Char) : List Char :=
  ((cs.dropWhile Char.isWhitespace).reverse.dropWhile Char.isWhitespace).reverse

/-- Parse a nonempty run of ASCII digits, most significant first;
`none` on an empty list or any non-digit. -/
def digitsAux : List Char → ℕ → Option ℕ
  | [], acc => some acc
  | c :: cs, acc =>
    if ('0' ≤ c ∧ c ≤ '9') then digitsAux cs (acc * 10 + (c.toNat - 48))
    else none

/-- `none` on an empty list, otherwise `digitsAux`. -/
def digitsToNat : List Char → Option ℕ
  | [] => none
  | c :: cs => digitsAux (c :: cs) 0

/-- Python `int(s)` on an ASCII string without digit separators:
optional surrounding whitespace, optional sign, then a nonempty run of
digits; `none` models the `ValueError` raise. -/
def pyInt (s : String) : Option Int :=
  match trimChars s.toList with
  | '-' :: rest => (digitsToNat rest).map fun n => -(n : Int)
  | '+' :: rest => (digitsToNat rest).map fun n => (n : Int)
  | t => (digitsToNat t).map fun n => (n : Int)

/-- Python `s.startswith(pre)`. -/
def pyStartsWith (pre s : String) : Bool :=
  decide (s.toList.take pre.toList.length = pre.toList)

/-- `os.path.basename` on POSIX: the part after the last slash. -/
def basename (p : String) : String :=
  String.mk ((splitChar '/' p.toList).getLastD [])

/-- Lexicographic comparison of character lists by code point, the
order Python uses to compare strings. -/
def charListLe : List Char → List Char → Bool
  | [], _ => true
  | _ :: _, [] => false
  | a :: as, b :: bs =>
    if a.toNat < b.toNat then true
    else if b.toNat < a.toNat then false
    else charListLe as bs

/-- Python string `<=`, as used by `sorted`. -/
def pyStrLe (a b : String) : Prop := charListLe a.toList b.toList = true

instance : DecidableRel pyStrLe := fun a b =>
  instDecidableEqBool (charListLe a.toList b.toList) true

instance : IsTotal String pyStrLe := by
  constructor
  intro a b
  show charListLe a.toList b.toList = true ∨ charListLe b.toList a.toList = true
  generalize a.toList = as
  generalize b.toList = bs
  induction as generalizing bs with
  | nil => exact Or.inl rfl
  | cons a as ih =>
    cases bs with
    | nil => exact Or.inr rfl
    | cons b bs =>
      rcases Nat.lt_trichotomy a.toNat b.toNat with h | h | h
      · exact Or.inl (by simp [charListLe, h])
      · rcases ih bs with h2 | h2
        · exact Or.inl (by simp [charListLe, h, h2])
        · exact Or.inr (by simp [charListLe, h, h2])
      · exact Or.inr (by simp [charListLe, h])

instance : IsTrans String pyStrLe := by
  have key : ∀ as bs cs : List Char, charListLe as bs = true →
      charListLe bs cs = true → charListLe as cs = true := by
    intro as
    induction as with
    | nil => intro bs cs _ _; rfl
    | cons a as ih =>
      intro bs cs hab hbc
      cases bs with
      | nil => simp [charListLe] at hab
      | cons b bs =>
        cases cs with
        | nil => simp [charListLe] at hbc
        | cons c cs =>
          simp only [charListLe] at hab hbc ⊢
          split at hab
          · rename_i h1
            split at hbc
            · rename_i h2
              simp [Nat.lt_trans h1 h2]
            · split at hbc
              · exact absurd hbc (by simp)
              · rename_i h3 h2
                have hbc2 : b.toNat = c.toNat := by omega
                simp [hbc2 ▸ h1]
          · split at hab
            · exact absurd hab (by simp)
            · rename_i h2 h1
              have hab2 : a.toNat = b.toNat := by omega
              split at hbc
              · rename_i h3
                simp [hab2 ▸ h3]
              · split at hbc
                · exact absurd hbc (by simp)
                · rename_i h4 h3
                  have hne : ¬ a.toNat < c.toNat := by omega
                  have hne2 : ¬ c.toNat < a.toNat := by omega
                  simp only [hne, if_false, hne2]
                  exact ih bs cs hab hbc
  exact ⟨fun a b c hab hbc => key a.toList b.toList c.toList hab hbc⟩

/-- Scan for the split point of `os.path.splitext`: the index of the
last dot that is preceded (anywhere) by a non-dot character. `seen`
records whether a non-dot character has occurred, `i` the current index,
`best` the last admissible dot index found so far. -/
def splitextScan : List Char → Bool → ℕ → Option ℕ → Option ℕ
  | [], _, _, best => best
  | c :: cs, seen, i, best =>
    if c = '.' then splitextScan cs seen (i + 1) (if seen then some i else best)
    else splitextScan cs true (i + 1) best

/-- The stem part of `os.path.splitext`: everything before the last dot,
provided some non-dot character occurs before that dot (a purely leading
run of dots is not an extension separator). -/
def splitextStem (b : String) : String :=
  match splitextScan b.toList false 0 none with
  | some i => String.mk (b.toList.take i)
  | none => b

/-! ### src/video_processor.py -/

namespace VideoProcessor

/-- The parsing stage of `VideoProcessor._get_frame_timestamp`: take
the base name of the path, strip the extension, split on underscores and
parse component 1 as an integer; `none` models any exception raised on
the way (missing component, `int` parse error). -/
def frameIndexOf (frame_path : String) : Option Int :=
  match (pySplit '_' (splitextStem (basename frame_path))).get? 1 with
  | none => none
  | some comp => pyInt comp

/-- `VideoProcessor._get_frame_timestamp`: the parsed component divided
by the hard-coded 30 fps assumption; any exception in the parsing stage
is swallowed and yields the default `0.0`. -/
def get_frame_timestamp (frame_path : String) : ℚ :=
  match frameIndexOf frame_path with
  | none => 0
  | some n => (n : ℚ) / 30

/-- A frame record as built by `extract_frames`. -/
structure Frame where
  path : String
  timestamp : ℚ
  deriving DecidableEq, Repr

/-- The spec's notion of a base name of the exact form
`frame_<integer>` (extension stripped): stem splits on `_` into exactly
`frame` and an integer component. -/
def frameIntOf (p : String) : Option Int :=
  match pySplit '_' (splitextStem (basename p)) with
  | [a, c] => if a = "frame" then pyInt c else none
  | _ => none

/-- The scene-change frame files found in the temp directory, in
temporal (sorted-filename) order, as collected by `extract_frames`. -/
def detectedKeyFrames (listing : List String) : List String :=
  (listing.filter (fun f => pyStartsWith "frame_" f)).insertionSort pyStrLe

/-- The key-frame cap of `extract_frames` (`max_frames = 3`). -/
def max_frames : ℕ := 3

/-- `VideoProcessor.extract_frames`, after the external ffmpeg
scene-change pass: `listing` is the temp-directory listing. Sorts the
`frame_`-prefixed files, truncates to `max_frames`, and builds a record
per file with the filename-derived timestamp. -/
def extract_frames (temp_dir : String) (listing : List String) : List Frame :=
  let frame_files := (detectedKeyFrames listing).take max_frames
  frame_files.map fun f =>
    { path := temp_dir ++ "/" ++ f
      timestamp := get_frame_timestamp (temp_dir ++ "/" ++ f) }

/-- A dense-frame record as built by `extract_all_frames`. -/
structure FrameInfo where
  path : String
  timestamp : ℚ
  filename : String
  deriving DecidableEq, Repr

/-- `VideoProcessor.extract_all_frames`, after the external ffmpeg
dense pass: `fps` is the requested cadence (it is passed to the external
command only and plays no further part), `listing` the resulting
directory listing of `output_dir/all_frames`. -/
def extract_all_frames (output_dir : String) (fps : ℕ) (listing : List String) :
    List FrameInfo :=
  let _ := fps
  let frames_dir := output_dir ++ "/" ++ "all_frames"
  let frame_files := (listing.filter (fun f => pyStartsWith "frame_" f)).insertionSort pyStrLe
  frame_files.map fun f =>
    { path := frames_dir ++ "/" ++ f
      timestamp := get_frame_timestamp (frames_dir ++ "/" ++ f)
      filename := f }

end VideoProcessor

/-! ### src/ai_analyzer.py -/

namespace AIAnalyzer

/-- Does `pat` occur at the start of `s`? -/
def listStartsWith : List Char → List Char → Bool
  | [], _ => true
  | _ :: _, [] => false
  | p :: ps, c :: cs => p = c && listStartsWith ps cs

/-- Python `pat in s` for strings: contiguous-substring occurrence. -/
def containsSub (pat : List Char) : List Char → Bool
  | [] => pat.isEmpty
  | c :: cs => listStartsWith pat (c :: cs) || containsSub pat cs

/-- The failure classifier used by every `except` branch of
`AIAnalyzer`: `"insufficient_quota" in error_msg`. -/
def isQuotaMsg (msg : String) : Bool :=
  containsSub "insufficient_quota".toList msg.toList

/-- `self.base_delay = 5` seconds. -/
def base_delay : ℕ := 5

/-- `max_retries = 3` in `analyze_image`. -/
def max_retries : ℕ := 3

/-- Outcome of one call to the external inference API. -/
inductive ApiResult where
  | success (content : String)
  | failure (msg : String)
  deriving DecidableEq, Repr

/-- The value an `AIAnalyzer` method hands back to its caller.  Each
error constructor stands for the distinct JSON payload or fixed string
built at the corresponding `return` site of the Python code; `content`
is a successful API response passed through; `pyNone` is Python's
implicit `None` on loop fall-through. -/
inductive Payload where
  | content (s : String)
  | quotaExceeded (tech : String)
  | analysisFailed (tech : String)
  | transcriptionQuota
  | transcriptionError
  | summaryQuota
  | summaryFailed (tech : String)
  | pyNone
  deriving DecidableEq, Repr

instance : DecidableEq (Except String Payload) := fun a b =>
  match a, b with
  | .ok x, .ok y =>
    if h : x = y then isTrue (by rw [h]) else isFalse (by simp [h])
  | .error x, .error y =>
    if h : x = y then isTrue (by rw [h]) else isFalse (by simp [h])
  | .ok _, .error _ => isFalse (by simp)
  | .error _, .ok _ => isFalse (by simp)

/-- Observable behaviour of one method invocation: the returned value
(`result = .error e` means an exception `e` escapes to the caller), the
number of API calls made, and the `time.sleep` durations in order. -/
structure Trace where
  result : Except String Payload
  apiCalls : ℕ
  delays : List ℕ
  deriving DecidableEq, Repr

/-- The retry loop of `analyze_image` (`for attempt in
range(max_retries)`), started at attempt index `attempt` with
`remaining` iterations left.  Before each attempt it sleeps
`base_delay * 2 ^ attempt`; a success returns the response content; a
quota-classified failure returns the quota-error JSON; any other
failure retries, and on the final attempt (`attempt == max_retries -
1`) re-raises.  Falling out of the loop returns Python's `None`. -/
def analyzeAttempts (api : ℕ → ApiResult) : ℕ → ℕ → Trace
  | 0, _ => ⟨.ok .pyNone, 0, []⟩
  | remaining + 1, attempt =>
    let delay := base_delay * 2 ^ attempt
    match api attempt with
    | .success c => ⟨.ok (.content c), 1, [delay]⟩
    | .failure msg =>
      if isQuotaMsg msg then ⟨.ok (.quotaExceeded msg), 1, [delay]⟩
      else if remaining = 0 then ⟨.error msg, 1, [delay]⟩
      else
        let t := analyzeAttempts api remaining (attempt + 1)
        ⟨t.result, t.apiCalls + 1, delay :: t.delays⟩

/-- `AIAnalyzer.analyze_image`: read the image file (`fileRead`), run
the retry loop, and catch any exception escaping either in the outer
handler, which returns the `Analysis failed` JSON instead of raising. -/
def analyze_image (fileRead : Except String Unit) (api : ℕ → ApiResult) : Trace :=
  let body : Trace :=
    match fileRead with
    | .error e => ⟨.error e, 0, []⟩
    | .ok _ => analyzeAttempts api max_retries 0
  match body.result with
  | .ok v => ⟨.ok v, body.apiCalls, body.delays⟩
  | .error e => ⟨.ok (.analysisFailed e), body.apiCalls, body.delays⟩

/-- `AIAnalyzer.transcribe_audio`: sleep `base_delay`, read the audio
file, make a single API call; the `except` classifies any failure into
one of two fixed error strings, never re-raising and never retrying. -/
def transcribe_audio (fileRead : Except String Unit) (api : ApiResult) : Trace :=
  match fileRead with
  | .error e =>
    ⟨.ok (if isQuotaMsg e then .transcriptionQuota else .transcriptionError), 0, [base_delay]⟩
  | .ok _ =>
    match api with
    | .success c => ⟨.ok (.content c), 1, [base_delay]⟩
    | .failure m =>
      ⟨.ok (if isQuotaMsg m then .transcriptionQuota else .transcriptionError), 1, [base_delay]⟩

/-- `AIAnalyzer.generate_summary`: sleep `base_delay`, build the prompt
(a pure computation of `results`, folded into the API argument), make a
single API call; the `except` classifies any failure into the
quota-error JSON or the `Summary generation failed` JSON, never
re-raising and never retrying. -/
def generate_summary (api : ApiResult) : Trace :=
  match api with
  | .success c => ⟨.ok (.content c), 1, [base_delay]⟩
  | .failure m =>
    ⟨.ok (if isQuotaMsg m then .summaryQuota else .summaryFailed m), 1, [base_delay]⟩

/-! #### `_create_summary_prompt`

The prompt is assembled by string concatenation; the embedding records
the ordered list of appended pieces, which determines the final string.
`json.loads` / `json.dumps` on arbitrary payload strings are external
to the repository, so the parse step is a parameter: for each payload
string it reports a parse failure, a parsed object containing the key
`error`, or a parsed object without it together with its re-rendered
dump. -/

/-- Outcome of `json.loads` plus the `'error' in analysis` check on one
vision payload string. -/
inductive ParseOutcome where
  | fail
  | okWithError
  | okNoError (rendered : String)
  deriving DecidableEq, Repr

/-- One entry of `results['frames']` as read by the prompt builder. -/
structure PromptFrame where
  timestamp : ℚ
  vision_analysis : String
  ocr_text : String
  deriving DecidableEq, Repr

/-- The `results['audio_analysis']` fields read by the prompt builder. -/
structure PromptAudio where
  transcription : String
  has_music : Bool
  deriving DecidableEq, Repr

/-- The parts of the `results` dict read by the prompt builder. -/
structure PromptResults where
  frames : List PromptFrame
  audio_analysis : Option PromptAudio
  deriving DecidableEq, Repr

/-- One piece appended to the prompt string. -/
inductive Chunk where
  | header
  | keyFramesHeader
  | moment (t : ℚ)
  | visionRendered (s : String)
  | visionRaw (s : String)
  | ocr (s : String)
  | audioSection (transcription : String)
  | musicDetected
  deriving DecidableEq, Repr

/-- The pieces contributed by one frame: the `Момент …` line; then the
re-rendered vision payload if it parsed without an `error` key, nothing
if it parsed with one, or the raw payload text if parsing raised; then
the OCR line when the OCR text is truthy (nonempty). -/
def frameChunks (parse : String → ParseOutcome) (f : PromptFrame) : List Chunk :=
  [Chunk.moment f.timestamp] ++
  (match parse f.vision_analysis with
   | .fail => [Chunk.visionRaw f.vision_analysis]
   | .okWithError => []
   | .okNoError r => [Chunk.visionRendered r]) ++
  (if f.ocr_text = "" then [] else [Chunk.ocr f.ocr_text])

/-- `AIAnalyzer._create_summary_prompt` as its ordered piece list. -/
def create_summary_prompt (parse : String → ParseOutcome) (results : PromptResults) :
    List Chunk :=
  [Chunk.header] ++
  (if results.frames.isEmpty then []
   else Chunk.keyFramesHeader :: results.frames.flatMap (frameChunks parse)) ++
  (match results.audio_analysis with
   | none => []
   | some a =>
     [Chunk.audioSection a.transcription] ++
     (if a.has_music then [Chunk.musicDetected] else []))

end AIAnalyzer

/-! ### src/main.py -/

namespace Main

open AIAnalyzer VideoProcessor

/-- The constant result of `VideoProcessor.detect_music` (only the
`has_music` flag is read downstream). -/
structure MusicDetection where
  has_music : Bool
  deriving DecidableEq, Repr

/-- `VideoProcessor.detect_music` always reports music present. -/
def detect_music : MusicDetection := { has_music := true }

/-- One entry of `results['all_frames_info']`. -/
structure FrameData where
  timestamp : ℚ
  filename : String
  ocr_text : String
  deriving DecidableEq, Repr

/-- One entry of `results['frames']`. -/
structure FrameAnalysis where
  timestamp : ℚ
  ocr_text : String
  vision_analysis : Payload
  deriving DecidableEq, Repr

/-- `results['audio_analysis']`. -/
structure AudioAnalysisEntry where
  transcription : Payload
  music_detection : MusicDetection
  deriving DecidableEq, Repr

/-- The `results` dict assembled by `analyze_video`. -/
structure Results where
  frames : List FrameAnalysis
  audio_analysis : Option AudioAnalysisEntry
  all_frames_info : List FrameData
  summary : Option Payload
  deriving DecidableEq, Repr

/-- The key-frame loop of `analyze_video` (`for i, frame in
enumerate(frames, 1)`): there is no per-frame handler, so an exception
escaping `analyze_image` aborts the whole loop. -/
def processKeyFrames (ocr : String → String) (fileRead : String → Except String Unit)
    (visionApi : String → ℕ → ApiResult) : List Frame → Except String (List FrameAnalysis)
  | [] => .ok []
  | fr :: rest =>
    match (analyze_image (fileRead fr.path) (visionApi fr.path)).result with
    | .error e => .error e
    | .ok v =>
      match processKeyFrames ocr fileRead visionApi rest with
      | .error e => .error e
      | .ok tail =>
        .ok ({ timestamp := fr.timestamp, ocr_text := ocr fr.path,
               vision_analysis := v } :: tail)

/-- The analysis and aggregation portion of `analyze_video`, from the
`results` initialisation up to and including `results['summary'] =
ai_analyzer.generate_summary(results)`.  External effects are
parameters: `ocr` the per-path OCR text, `fileRead` per-path image
reads, `visionApi` the per-path inference attempts, `audioFileRead` and
`transApi` the transcription effects, `summaryApi` the summary call. -/
def analyze_video_results (all_frames : List FrameInfo) (key_frames : List Frame)
    (ocr : String → String) (fileRead : String → Except String Unit)
    (visionApi : String → ℕ → ApiResult)
    (audioFileRead : Except String Unit) (transApi : ApiResult)
    (summaryApi : ApiResult) : Except String Results :=
  let all_frames_info := all_frames.map fun fi =>
    { timestamp := fi.timestamp, filename := fi.filename,
      ocr_text := ocr fi.path : FrameData }
  match processKeyFrames ocr fileRead visionApi key_frames with
  | .error e => .error e
  | .ok frames =>
    match (transcribe_audio audioFileRead transApi).result with
    | .error e => .error e
    | .ok transcriptionVal =>
      match (generate_summary summaryApi).result with
      | .error e => .error e
      | .ok summ =>
        .ok { frames := frames
              audio_analysis := some { transcription := transcriptionVal,
                                       music_detection := detect_music }
              all_frames_info := all_frames_info
              summary := some summ }

/-- The member paths of the zip built by `create_results_archive`:
every file found under `output_dir/all_frames` is stored under
`all_frames/`, then the report and the readme are stored under their
bare names at the archive root. -/
def zipEntries (frameFiles : List String) : List String :=
  frameFiles.map (fun f => "all_frames/" ++ f) ++ ["analysis.json", "README.md"]

end Main

/-- The directory listing that a dense extraction at 1 Hz over a
10-second video leaves in `output/all_frames`: ten numbered frame
files, numbered from zero. -/
def denseListing10 : List String :=
  ["frame_0000.jpg", "frame_0001.jpg", "frame_0002.jpg", "frame_0003.jpg",
   "frame_0004.jpg", "frame_0005.jpg", "frame_0006.jpg", "frame_0007.jpg",
   "frame_0008.jpg", "frame_0009.jpg"]

/-! ## Theorems -/

/-- The timestamps `extract_all_frames` assigns to the ten dense frames
of a 1 Hz pass over a 10-second video: each is the filename index over
the hard-coded 30, not the index in seconds. -/
theorem denseListing10_timestamps :
    (VideoProcessor.extract_all_frames "output" 1 denseListing10).map
        VideoProcessor.FrameInfo.timestamp =
      [0, 1/30, 2/30, 3/30, 4/30, 5/30, 6/30, 7/30, 8/30, 9/30] := by
  have hsort : (denseListing10.filter
      (fun f => pyStartsWith "frame_" f)).insertionSort pyStrLe = denseListing10 := by
    decide
  have h0 : VideoProcessor.frameIndexOf ("output" ++ "/" ++ "all_frames" ++ "/" ++ "frame_0000.jpg") = some 0 := by decide
  have h1 : VideoProcessor.frameIndexOf ("output" ++ "/" ++ "all_frames" ++ "/" ++ "frame_0001.jpg") = some 1 := by decide
  have h2 : VideoProcessor.frameIndexOf ("output" ++ "/" ++ "all_frames" ++ "/" ++ "frame_0002.jpg") = some 2 := by decide
  have h3 : VideoProcessor.frameIndexOf ("output" ++ "/" ++ "all_frames" ++ "/" ++ "frame_0003.jpg") = some 3 := by decide
  have h4 : VideoProcessor.frameIndexOf ("output" ++ "/" ++ "all_frames" ++ "/" ++ "frame_0004.jpg") = some 4 := by decide
  have h5 : VideoProcessor.frameIndexOf ("output" ++ "/" ++ "all_frames" ++ "/" ++ "frame_0005.jpg") = some 5 := by decide
  have h6 : VideoProcessor.frameIndexOf ("output" ++ "/" ++ "all_frames" ++ "/" ++ "frame_0006.jpg") = some 6 := by decide
  have h7 : VideoProcessor.frameIndexOf ("output" ++ "/" ++ "all_frames" ++ "/" ++ "frame_0007.jpg") = some 7 := by decide
  have h8 : VideoProcessor.frameIndexOf ("output" ++ "/" ++ "all_frames" ++ "/" ++ "frame_0008.jpg") = some 8 := by decide
  have h9 : VideoProcessor.frameIndexOf ("output" ++ "/" ++ "all_frames" ++ "/" ++ "frame_0009.jpg") = some 9 := by decide
  simp only [VideoProcessor.extract_all_frames, denseListing10, hsort]
  simp only [List.map]
  simp only [VideoProcessor.get_frame_timestamp, h0, h1, h2, h3, h4, h5, h6, h7, h8, h9]
  norm_num

/-- Claim C1 (amended): a frame's timestamp is a pure function of the
frame's filename index alone; the extraction cadence passed to
`extract_all_frames` plays no part in it, so the dense 1 Hz pass over a
10-second video is assigned timestamps `index / 30` seconds (0, 1/30,
…, 9/30), not 0..9 seconds. -/
theorem claim1_timestamp_from_index_only :
    (∀ (output_dir : String) (fps fps2 : ℕ) (listing : List String),
      VideoProcessor.extract_all_frames output_dir fps listing =
        VideoProcessor.extract_all_frames output_dir fps2 listing) ∧
    (VideoProcessor.extract_all_frames "output" 1 denseListing10).map
        VideoProcessor.FrameInfo.timestamp =
      [0, 1/30, 2/30, 3/30, 4/30, 5/30, 6/30, 7/30, 8/30, 9/30] :=
  ⟨fun _ _ _ _ => rfl, denseListing10_timestamps⟩

/-- Claim C1, counterexample to the claim as stated: the dense 1 Hz
pass over a 10-second video does not carry timestamps 0..9 seconds. -/
theorem claim1_dense_1hz_not_integer_seconds :
    (VideoProcessor.extract_all_frames "output" 1 denseListing10).map
        VideoProcessor.FrameInfo.timestamp ≠ [0, 1, 2, 3, 4, 5, 6, 7, 8, 9] := by
  intro h
  rw [denseListing10_timestamps] at h
  have h3 := congrArg (fun l => l.get? 1) h
  simp at h3

/-- Claim C2: key-frame extraction returns at most `max_frames = 3`
frames, and they are exactly the first `max_frames` detected
scene-change frames in temporal (sorted-filename) order, with no
re-sorting of the truncated slice. -/
theorem claim2_key_frames_capped_in_order (temp_dir : String) (listing : List String) :
    VideoProcessor.max_frames = 3 ∧
    (VideoProcessor.extract_frames temp_dir listing).length ≤ VideoProcessor.max_frames ∧
    (VideoProcessor.extract_frames temp_dir listing).map VideoProcessor.Frame.path =
      ((VideoProcessor.detectedKeyFrames listing).take VideoProcessor.max_frames).map
        (fun f => temp_dir ++ "/" ++ f) ∧
    List.Sorted pyStrLe ((VideoProcessor.detectedKeyFrames listing).take
      VideoProcessor.max_frames) := by
  refine ⟨rfl, ?_, ?_, ?_⟩
  · simp only [VideoProcessor.extract_frames, List.length_map]
    exact List.length_take_le _ _
  · simp only [VideoProcessor.extract_frames]
    rw [List.map_map]
    rfl
  · exact List.Pairwise.sublist (List.take_sublist _ _)
      (List.sorted_insertionSort pyStrLe _)

/-- Claim C10 (amended): `_get_frame_timestamp` is total — every path
gets some timestamp — and returns `n / 30` exactly when the second
underscore-separated component of the extension-stripped base name
parses as the integer `n` (in particular for names of the exact form
`frame_<integer>`), and `0.0` whenever that parse fails.  The claim's
converse direction is false: names that are not of the form
`frame_<integer>` can still yield a nonzero timestamp. -/
theorem claim10_timestamp_total (p : String) :
    (∀ n, VideoProcessor.frameIntOf p = some n →
      VideoProcessor.get_frame_timestamp p = (n : ℚ) / 30) ∧
    (VideoProcessor.frameIndexOf p = none →
      VideoProcessor.get_frame_timestamp p = 0) ∧
    (∀ n, VideoProcessor.frameIndexOf p = some n →
      VideoProcessor.get_frame_timestamp p = (n : ℚ) / 30) := by
  refine ⟨?_, ?_, ?_⟩
  · intro n h
    have hidx : VideoProcessor.frameIndexOf p = some n := by
      unfold VideoProcessor.frameIntOf at h
      unfold VideoProcessor.frameIndexOf
      cases hs : pySplit '_' (splitextStem (basename p)) with
      | nil =>
        rw [hs] at h
        have h2 : (none : Option Int) = some n := h
        exact absurd h2 (by simp)
      | cons a t =>
        cases t with
        | nil =>
          rw [hs] at h
          have h2 : (none : Option Int) = some n := h
          exact absurd h2 (by simp)
        | cons c t2 =>
          cases t2 with
          | nil =>
            rw [hs] at h
            have h2 : (if a = "frame" then pyInt c else none) = some n := h
            show pyInt c = some n
            by_cases ha : a = "frame"
            · rwa [if_pos ha] at h2
            · rw [if_neg ha] at h2
              exact absurd h2 (by simp)
          | cons d t3 =>
            rw [hs] at h
            have h2 : (none : Option Int) = some n := h
            exact absurd h2 (by simp)
    simp [VideoProcessor.get_frame_timestamp, hidx]
  · intro h
    simp [VideoProcessor.get_frame_timestamp, h]
  · intro n h
    simp [VideoProcessor.get_frame_timestamp, h]

/-- Claim C10, witness: a well-formed `frame_0005.jpg` name parses and
gets timestamp 5/30. -/
theorem claim10_witness :
    VideoProcessor.frameIntOf "temp/frame_0005.jpg" = some 5 ∧
    VideoProcessor.get_frame_timestamp "temp/frame_0005.jpg" = ((5 : Int) : ℚ) / 30 :=
  ⟨by decide, (claim10_timestamp_total "temp/frame_0005.jpg").1 5 (by decide)⟩

open AIAnalyzer in
/-- One-step unfolding of the retry loop on a successful attempt. -/
theorem analyzeAttempts_success (api : ℕ → ApiResult) (r a : ℕ) (c : String)
    (h : api a = ApiResult.success c) :
    analyzeAttempts api (r + 1) a =
      ⟨Except.ok (Payload.content c), 1, [base_delay * 2 ^ a]⟩ := by
  rw [analyzeAttempts, h]

open AIAnalyzer in
/-- One-step unfolding of the retry loop on a quota-classified failure. -/
theorem analyzeAttempts_quota (api : ℕ → ApiResult) (r a : ℕ) (msg : String)
    (h : api a = ApiResult.failure msg) (hq : isQuotaMsg msg = true) :
    analyzeAttempts api (r + 1) a =
      ⟨Except.ok (Payload.quotaExceeded msg), 1, [base_delay * 2 ^ a]⟩ := by
  rw [analyzeAttempts, h]
  simp [hq]

open AIAnalyzer in
/-- The final attempt re-raises a non-quota failure. -/
theorem analyzeAttempts_last (api : ℕ → ApiResult) (a : ℕ) (msg : String)
    (h : api a = ApiResult.failure msg) (hq : isQuotaMsg msg = false) :
    analyzeAttempts api 1 a = ⟨Except.error msg, 1, [base_delay * 2 ^ a]⟩ := by
  rw [show (1 : ℕ) = 0 + 1 from rfl, analyzeAttempts, h]
  simp [hq]

open AIAnalyzer in
/-- A non-final, non-quota failure falls through to the next attempt. -/
theorem analyzeAttempts_step (api : ℕ → ApiResult) (r a : ℕ) (msg : String)
    (h : api a = ApiResult.failure msg) (hq : isQuotaMsg msg = false) :
    analyzeAttempts api (r + 1 + 1) a =
      ⟨(analyzeAttempts api (r + 1) (a + 1)).result,
       (analyzeAttempts api (r + 1) (a + 1)).apiCalls + 1,
       base_delay * 2 ^ a :: (analyzeAttempts api (r + 1) (a + 1)).delays⟩ := by
  rw [analyzeAttempts, h]
  simp [hq]

open AIAnalyzer in
/-- Under persistent non-quota failure the loop makes all three
attempts, sleeps 5, 10 and 20 seconds, and re-raises the last error. -/
theorem analyzeAttempts_all_fail (api : ℕ → ApiResult) (m : ℕ → String)
    (hfail : ∀ n, n < max_retries → api n = ApiResult.failure (m n))
    (hnq : ∀ n, n < max_retries → isQuotaMsg (m n) = false) :
    analyzeAttempts api max_retries 0 = ⟨Except.error (m 2), 3, [5, 10, 20]⟩ := by
  have e1 : analyzeAttempts api 1 2 = ⟨Except.error (m 2), 1, [20]⟩ := by
    rw [analyzeAttempts_last api 2 (m 2) (hfail 2 (by decide)) (hnq 2 (by decide))]
    rfl
  have e2 : analyzeAttempts api 2 1 = ⟨Except.error (m 2), 2, [10, 20]⟩ := by
    rw [show (2 : ℕ) = 0 + 1 + 1 from rfl,
      analyzeAttempts_step api 0 1 (m 1) (hfail 1 (by decide)) (hnq 1 (by decide))]
    rw [show (0 : ℕ) + 1 = 1 from rfl, show (1 : ℕ) + 1 = 2 from rfl, e1]
    rfl
  have e3 : analyzeAttempts api 3 0 = ⟨Except.error (m 2), 3, [5, 10, 20]⟩ := by
    rw [show (3 : ℕ) = 1 + 1 + 1 from rfl,
      analyzeAttempts_step api 1 0 (m 0) (hfail 0 (by decide)) (hnq 0 (by decide))]
    rw [show (1 : ℕ) + 1 = 2 from rfl, show (0 : ℕ) + 1 = 1 from rfl, e2]
    rfl
  exact e3

open AIAnalyzer in
/-- `analyze_image` on a readable file is the retry loop's trace with
any escaping exception converted to the `Analysis failed` payload. -/
theorem analyze_image_of_loop (api : ℕ → ApiResult) (t : Trace)
    (h : analyzeAttempts api max_retries 0 = t) :
    analyze_image (Except.ok ()) api =
      ⟨match t.result with
       | Except.ok v => Except.ok v
       | Except.error e => Except.ok (Payload.analysisFailed e), t.apiCalls, t.delays⟩ := by
  unfold analyze_image
  rw [show (match (Except.ok () : Except String Unit) with
    | Except.error e => (⟨Except.error e, 0, []⟩ : Trace)
    | Except.ok _ => analyzeAttempts api max_retries 0) = t from h]
  obtain ⟨res, calls, delays⟩ := t
  cases res <;> rfl

open AIAnalyzer in
/-- Claim C3 (amended): when every attempt fails with a non-quota
error, the retry loop itself re-raises the last error after exhausting
`max_retries` attempts, but `analyze_image`'s outer handler catches it
and returns the `Analysis failed` error payload carrying that last
error — the caller receives a value, not an exception. -/
theorem claim3_failure_caught_and_returned
    (api : ℕ → ApiResult) (m : ℕ → String)
    (hfail : ∀ n, n < max_retries → api n = ApiResult.failure (m n))
    (hnq : ∀ n, n < max_retries → isQuotaMsg (m n) = false) :
    (analyzeAttempts api max_retries 0).result = Except.error (m 2) ∧
    analyze_image (Except.ok ()) api =
      ⟨Except.ok (Payload.analysisFailed (m 2)), 3, [5, 10, 20]⟩ := by
  have e := analyzeAttempts_all_fail api m hfail hnq
  constructor
  · rw [e]
  · rw [analyze_image_of_loop api _ e]

open AIAnalyzer in
/-- Claim C3, witness: a persistently failing API yields the returned
error payload after three attempts. -/
theorem claim3_witness :
    analyze_image (Except.ok ()) (fun _ => ApiResult.failure "boom") =
      ⟨Except.ok (Payload.analysisFailed "boom"), 3, [5, 10, 20]⟩ :=
  (claim3_failure_caught_and_returned (fun _ => ApiResult.failure "boom")
    (fun _ => "boom") (fun _ _ => rfl) (fun _ _ => rfl)).2

open AIAnalyzer in
/-- Claim C3, counterexample to the claim as stated: with a persistent
non-quota failure `boom`, `analyze_image` does not propagate the last
error to its caller; it returns the `Analysis failed` payload. -/
theorem claim3_no_raise_to_caller :
    (analyze_image (Except.ok ()) (fun _ => ApiResult.failure "boom")).result ≠
      Except.error "boom" ∧
    (analyze_image (Except.ok ()) (fun _ => ApiResult.failure "boom")).result =
      Except.ok (Payload.analysisFailed "boom") := by
  exact ⟨by decide, by decide⟩

open AIAnalyzer in
/-- Claim C4: when every API call reports quota exhaustion, each of the
three operations returns after exactly one API attempt with its fixed
quota-error value, which is distinct from every success payload. -/
theorem claim4_quota_single_attempt (m : String) (hq : isQuotaMsg m = true) :
    analyze_image (Except.ok ()) (fun _ => ApiResult.failure m) =
      ⟨Except.ok (Payload.quotaExceeded m), 1, [base_delay]⟩ ∧
    (∀ s, (analyze_image (Except.ok ()) (fun _ => ApiResult.failure m)).result ≠
      Except.ok (Payload.content s)) ∧
    transcribe_audio (Except.ok ()) (ApiResult.failure m) =
      ⟨Except.ok Payload.transcriptionQuota, 1, [base_delay]⟩ ∧
    (∀ s, (transcribe_audio (Except.ok ()) (ApiResult.failure m)).result ≠
      Except.ok (Payload.content s)) ∧
    generate_summary (ApiResult.failure m) =
      ⟨Except.ok Payload.summaryQuota, 1, [base_delay]⟩ ∧
    (∀ s, (generate_summary (ApiResult.failure m)).result ≠
      Except.ok (Payload.content s)) := by
  have e : analyzeAttempts (fun _ => ApiResult.failure m) max_retries 0 =
      ⟨Except.ok (Payload.quotaExceeded m), 1, [base_delay * 2 ^ 0]⟩ := by
    rw [show max_retries = 2 + 1 from rfl]
    exact analyzeAttempts_quota _ 2 0 m rfl hq
  have e2 := analyze_image_of_loop _ _ e
  refine ⟨?_, ?_, ?_, ?_, ?_, ?_⟩
  · rw [e2]; rfl
  · intro s; rw [e2]; simp
  · simp [transcribe_audio, hq]
  · intro s; simp [transcribe_audio, hq]
  · simp [generate_summary, hq]
  · intro s; simp [generate_summary, hq]

open AIAnalyzer in
/-- Claim C4, witness: the literal quota message triggers the
single-attempt quota returns. -/
theorem claim4_witness :
    isQuotaMsg "insufficient_quota" = true ∧
    analyze_image (Except.ok ()) (fun _ => ApiResult.failure "insufficient_quota") =
      ⟨Except.ok (Payload.quotaExceeded "insufficient_quota"), 1, [base_delay]⟩ :=
  ⟨by decide, (claim4_quota_single_attempt "insufficient_quota" (by decide)).1⟩

open AIAnalyzer in
/-- Claim C5 (amended): only `analyze_image` is wrapped in the bounded
three-attempt retry loop; `transcribe_audio` and `generate_summary`
make exactly one API attempt even on a transient failure, and merely
classify the failure into their error values. -/
theorem claim5_only_vision_retries
    (api : ℕ → ApiResult) (m : ℕ → String) (m1 : String)
    (hfail : ∀ n, n < max_retries → api n = ApiResult.failure (m n))
    (hnq : ∀ n, n < max_retries → isQuotaMsg (m n) = false)
    (hm1 : isQuotaMsg m1 = false) :
    (analyze_image (Except.ok ()) api).apiCalls = max_retries ∧
    (transcribe_audio (Except.ok ()) (ApiResult.failure m1)).apiCalls = 1 ∧
    (transcribe_audio (Except.ok ()) (ApiResult.failure m1)).result =
      Except.ok Payload.transcriptionError ∧
    (generate_summary (ApiResult.failure m1)).apiCalls = 1 ∧
    (generate_summary (ApiResult.failure m1)).result =
      Except.ok (Payload.summaryFailed m1) := by
  have e := analyzeAttempts_all_fail api m hfail hnq
  have e2 := analyze_image_of_loop api _ e
  refine ⟨?_, ?_, ?_, ?_, ?_⟩
  · rw [e2]; rfl
  · simp [transcribe_audio, hm1]
  · simp [transcribe_audio, hm1]
  · simp [generate_summary, hm1]
  · simp [generate_summary, hm1]

open AIAnalyzer in
/-- Claim C5, witness: with a persistent transient failure, vision
makes three attempts while transcription makes one. -/
theorem claim5_witness :
    (analyze_image (Except.ok ()) (fun _ => ApiResult.failure "timeout")).apiCalls =
      max_retries ∧
    (transcribe_audio (Except.ok ()) (ApiResult.failure "timeout")).apiCalls = 1 :=
  ⟨(claim5_only_vision_retries (fun _ => ApiResult.failure "timeout")
      (fun _ => "timeout") "timeout" (fun _ _ => rfl) (fun _ _ => rfl)
      (by decide)).1,
   (claim5_only_vision_retries (fun _ => ApiResult.failure "timeout")
      (fun _ => "timeout") "timeout" (fun _ _ => rfl) (fun _ _ => rfl)
      (by decide)).2.1⟩

open AIAnalyzer in
/-- Claim C5, counterexample to the claim as stated: on a transient
(non-quota) failure neither `transcribe_audio` nor `generate_summary`
re-attempts the call — each gives up after one attempt, not
`max_retries = 3`. -/
theorem claim5_transcribe_summary_no_retry :
    (transcribe_audio (Except.ok ()) (ApiResult.failure "timeout")).apiCalls = 1 ∧
    ¬ (transcribe_audio (Except.ok ()) (ApiResult.failure "timeout")).apiCalls =
      max_retries ∧
    (generate_summary (ApiResult.failure "timeout")).apiCalls = 1 ∧
    ¬ (generate_summary (ApiResult.failure "timeout")).apiCalls = max_retries := by
  exact ⟨by decide, by decide, by decide, by decide⟩

open AIAnalyzer in
/-- The sleeps of the retry loop: starting at attempt `a`, the recorded
delays are `base_delay * 2 ^ (a + i)` for `i` below the number of
attempts made — one sleep before every attempt, the first included. -/
theorem analyzeAttempts_delays (api : ℕ → ApiResult) :
    ∀ (r a : ℕ), (analyzeAttempts api r a).delays =
      (List.range (analyzeAttempts api r a).apiCalls).map
        (fun i => base_delay * 2 ^ (a + i)) := by
  intro r
  induction r with
  | zero => intro a; rfl
  | succ r ih =>
    intro a
    rcases hapi : api a with c | msg
    · rw [analyzeAttempts_success api r a c hapi]
      rw [show List.range 1 = [0] from rfl]
      simp
    · by_cases hq : isQuotaMsg msg = true
      · rw [analyzeAttempts_quota api r a msg hapi hq]
        rw [show List.range 1 = [0] from rfl]
        simp
      · rw [Bool.not_eq_true] at hq
        cases r with
        | zero =>
          rw [analyzeAttempts_last api a msg hapi hq]
          rw [show List.range 1 = [0] from rfl]
          simp
        | succ r2 =>
          rw [analyzeAttempts_step api r2 a msg hapi hq]
          rw [ih (a + 1)]
          rw [List.range_succ_eq_map]
          simp only [List.map_cons, List.map_map]
          have harith : ((fun i => base_delay * 2 ^ (a + i)) ∘ Nat.succ) =
              fun i => base_delay * 2 ^ (a + 1 + i) := by
            funext i
            simp only [Function.comp]
            have h3 : a + Nat.succ i = a + 1 + i := by omega
            rw [h3]
          rw [harith]
          simp

open AIAnalyzer in
/-- Claim C6: `analyze_image` sleeps `base_delay * 2 ^ attemptIndex`
seconds before every attempt it makes, the first included; and when the
API fails transiently on attempts 1 and 2 and succeeds on attempt 3,
it returns the successful content with no error. -/
theorem claim6_preemptive_backoff_and_recovery
    (api : ℕ → ApiResult) (c m0 m1 : String)
    (h0 : api 0 = ApiResult.failure m0) (hq0 : isQuotaMsg m0 = false)
    (h1 : api 1 = ApiResult.failure m1) (hq1 : isQuotaMsg m1 = false)
    (h2 : api 2 = ApiResult.success c) :
    (∀ (fileRead : Except String Unit) (api2 : ℕ → ApiResult),
      (analyze_image fileRead api2).delays =
        (List.range (analyze_image fileRead api2).apiCalls).map
          (fun i => base_delay * 2 ^ i)) ∧
    analyze_image (Except.ok ()) api =
      ⟨Except.ok (Payload.content c), 3, [5, 10, 20]⟩ := by
  constructor
  · intro fileRead api2
    cases fileRead with
    | error e => rfl
    | ok u =>
      cases u
      rw [analyze_image_of_loop api2 _ rfl]
      have hd := analyzeAttempts_delays api2 max_retries 0
      simpa using hd
  · have eA : analyzeAttempts api 3 0 = ⟨Except.ok (Payload.content c), 3, [5, 10, 20]⟩ := by
      have s1 : analyzeAttempts api 1 2 = ⟨Except.ok (Payload.content c), 1, [20]⟩ := by
        rw [show (1 : ℕ) = 0 + 1 from rfl, analyzeAttempts_success api 0 2 c h2]
        rfl
      have s2 : analyzeAttempts api 2 1 = ⟨Except.ok (Payload.content c), 2, [10, 20]⟩ := by
        rw [show (2 : ℕ) = 0 + 1 + 1 from rfl, analyzeAttempts_step api 0 1 m1 h1 hq1]
        rw [show (0 : ℕ) + 1 = 1 from rfl, show (1 : ℕ) + 1 = 2 from rfl, s1]
        rfl
      rw [show (3 : ℕ) = 1 + 1 + 1 from rfl, analyzeAttempts_step api 1 0 m0 h0 hq0]
      rw [show (1 : ℕ) + 1 = 2 from rfl, show (0 : ℕ) + 1 = 1 from rfl, s2]
      rfl
    rw [analyze_image_of_loop api _ eA]

open AIAnalyzer in
/-- Claim C6, witness: transient failures on attempts 1 and 2 and a
success on attempt 3 yield the content after delays 5, 10, 20. -/
theorem claim6_witness :
    analyze_image (Except.ok ())
        (fun n => if n = 0 then ApiResult.failure "e0"
          else if n = 1 then ApiResult.failure "e1" else ApiResult.success "done") =
      ⟨Except.ok (Payload.content "done"), 3, [5, 10, 20]⟩ :=
  (claim6_preemptive_backoff_and_recovery
    (fun n => if n = 0 then ApiResult.failure "e0"
      else if n = 1 then ApiResult.failure "e1" else ApiResult.success "done")
    "done" "e0" "e1" rfl (by decide) rfl (by decide) rfl).2

open AIAnalyzer in
/-- `analyze_image` never lets an exception escape: whatever the file
read and the API do, the caller receives a returned value. -/
theorem analyze_image_result_ok (fileRead : Except String Unit) (api : ℕ → ApiResult) :
    ∃ v, (analyze_image fileRead api).result = Except.ok v := by
  cases fileRead with
  | error e => exact ⟨Payload.analysisFailed e, rfl⟩
  | ok u =>
    cases u
    rw [analyze_image_of_loop api _ rfl]
    cases hres : (analyzeAttempts api max_retries 0).result with
    | ok v => exact ⟨v, rfl⟩
    | error e => exact ⟨Payload.analysisFailed e, rfl⟩

open AIAnalyzer in
/-- `transcribe_audio` never lets an exception escape. -/
theorem transcribe_result_ok (fileRead : Except String Unit) (api : ApiResult) :
    ∃ v, (transcribe_audio fileRead api).result = Except.ok v := by
  cases fileRead with
  | error e =>
    exact ⟨if isQuotaMsg e then Payload.transcriptionQuota else Payload.transcriptionError,
      rfl⟩
  | ok u =>
    cases u
    cases api with
    | success c => exact ⟨Payload.content c, rfl⟩
    | failure m =>
      exact ⟨if isQuotaMsg m then Payload.transcriptionQuota else Payload.transcriptionError,
        rfl⟩

open AIAnalyzer in
/-- `generate_summary` never lets an exception escape. -/
theorem generate_summary_result_ok (api : ApiResult) :
    ∃ v, (generate_summary api).result = Except.ok v := by
  cases api with
  | success c => exact ⟨Payload.content c, rfl⟩
  | failure m =>
    exact ⟨if isQuotaMsg m then Payload.summaryQuota else Payload.summaryFailed m, rfl⟩

open AIAnalyzer Main in
/-- The unprotected key-frame loop still completes, because
`analyze_image` returns rather than raising. -/
theorem processKeyFrames_ok (ocr : String → String) (fileRead : String → Except String Unit)
    (visionApi : String → ℕ → ApiResult) :
    ∀ key_frames, ∃ l, processKeyFrames ocr fileRead visionApi key_frames = Except.ok l := by
  intro kf
  induction kf with
  | nil => exact ⟨[], rfl⟩
  | cons fr rest ih =>
    obtain ⟨v, hv⟩ := analyze_image_result_ok (fileRead fr.path) (visionApi fr.path)
    obtain ⟨l, hl⟩ := ih
    refine ⟨{ timestamp := fr.timestamp, ocr_text := ocr fr.path,
              vision_analysis := v } :: l, ?_⟩
    rw [processKeyFrames, hv, hl]

open AIAnalyzer Main in
/-- Claim C7: whatever every external effect does, `generate_summary`
returns a value (never raises), the pipeline's analysis stage completes,
and the assembled results always carry a present `summary` field equal
to that value — so rendering and archiving proceed. -/
theorem claim7_summary_always_present
    (all_frames : List VideoProcessor.FrameInfo) (key_frames : List VideoProcessor.Frame)
    (ocr : String → String) (fileRead : String → Except String Unit)
    (visionApi : String → ℕ → ApiResult) (audioFileRead : Except String Unit)
    (transApi summaryApi : ApiResult) :
    ∃ p, (generate_summary summaryApi).result = Except.ok p ∧
      ∃ res, analyze_video_results all_frames key_frames ocr fileRead visionApi
          audioFileRead transApi summaryApi = Except.ok res ∧
        res.summary = some p := by
  obtain ⟨l, hl⟩ := processKeyFrames_ok ocr fileRead visionApi key_frames
  obtain ⟨t, ht⟩ := transcribe_result_ok audioFileRead transApi
  obtain ⟨p, hp⟩ := generate_summary_result_ok summaryApi
  refine ⟨p, hp, ?_⟩
  unfold analyze_video_results
  rw [hl, ht, hp]
  exact ⟨_, rfl, rfl⟩

open AIAnalyzer in
/-- The vision chunk a single frame contributes renders exactly its
no-error parse. -/
theorem mem_frameChunks_rendered (parse : String → ParseOutcome) (f : PromptFrame)
    (r : String) :
    Chunk.visionRendered r ∈ frameChunks parse f ↔
      parse f.vision_analysis = ParseOutcome.okNoError r := by
  unfold frameChunks
  rcases hp : parse f.vision_analysis with _ | _ | s <;>
    split_ifs <;> simp [hp, eq_comm]

open AIAnalyzer in
/-- The raw-text chunk a single frame contributes appears exactly when
its payload fails to parse. -/
theorem mem_frameChunks_raw (parse : String → ParseOutcome) (f : PromptFrame)
    (r : String) :
    Chunk.visionRaw r ∈ frameChunks parse f ↔
      parse f.vision_analysis = ParseOutcome.fail ∧ f.vision_analysis = r := by
  unfold frameChunks
  rcases hp : parse f.vision_analysis with _ | _ | s <;>
    split_ifs <;> simp [hp, eq_comm]

open AIAnalyzer in
/-- Claim C8: the prompt contains a rendered vision payload exactly for
the frames whose payload parses without an `error` key — so payloads
carrying the error marker are excluded — and contains a frame's raw
payload text exactly when parsing that payload fails. -/
theorem claim8_error_payloads_excluded (parse : String → ParseOutcome)
    (results : PromptResults) (r : String) :
    (Chunk.visionRendered r ∈ create_summary_prompt parse results ↔
      ∃ f ∈ results.frames, parse f.vision_analysis = ParseOutcome.okNoError r) ∧
    (Chunk.visionRaw r ∈ create_summary_prompt parse results ↔
      ∃ f ∈ results.frames, parse f.vision_analysis = ParseOutcome.fail ∧
        f.vision_analysis = r) := by
  have hr := fun f => mem_frameChunks_rendered parse f r
  have hw := fun f => mem_frameChunks_raw parse f r
  unfold create_summary_prompt
  rcases ha : results.audio_analysis with _ | a
  · by_cases he : results.frames.isEmpty
    · have hnil := List.isEmpty_iff.mp he
      simp [he, hnil]
    · simp [he, List.mem_flatMap, hr, hw]
  · cases hm : a.has_music
    · by_cases he : results.frames.isEmpty
      · have hnil := List.isEmpty_iff.mp he
        simp [he, hnil, hm]
      · simp [he, hm, List.mem_flatMap, hr, hw]
    · by_cases he : results.frames.isEmpty
      · have hnil := List.isEmpty_iff.mp he
        simp [he, hnil, hm]
      · simp [he, hm, List.mem_flatMap, hr, hw]

open Main in
/-- Claim C9 (amended): the produced zip contains the serialized report
at the root path `analysis.json`, the readme at the root path
`README.md`, and each dense frame image under `all_frames/`, and
nothing else. -/
theorem claim9_zip_layout (frameFiles : List String) :
    "analysis.json" ∈ zipEntries frameFiles ∧
    "README.md" ∈ zipEntries frameFiles ∧
    (∀ f ∈ frameFiles, ("all_frames/" ++ f) ∈ zipEntries frameFiles) ∧
    (∀ e ∈ zipEntries frameFiles, e = "analysis.json" ∨ e = "README.md" ∨
      ∃ f ∈ frameFiles, e = "all_frames/" ++ f) := by
  refine ⟨?_, ?_, ?_, ?_⟩
  · simp [zipEntries]
  · simp [zipEntries]
  · intro f hf
    simp only [zipEntries, List.mem_append, List.mem_map]
    exact Or.inl ⟨f, hf, rfl⟩
  · intro e he
    simp only [zipEntries, List.mem_append, List.mem_map, List.mem_cons,
      List.mem_singleton] at he
    rcases he with ⟨f, hf, hfe⟩ | he | he | he
    · exact Or.inr (Or.inr ⟨f, hf, hfe.symm⟩)
    · exact Or.inl he
    · exact Or.inr (Or.inl he)
    · exact absurd he (List.not_mem_nil e)

open Main in
/-- Claim C9, witness: with one frame file the archive holds the root
report and the frame under `all_frames/`. -/
theorem claim9_witness :
    "analysis.json" ∈ zipEntries ["frame_0001.jpg"] ∧
    "all_frames/" ++ "frame_0001.jpg" ∈ zipEntries ["frame_0001.jpg"] :=
  ⟨(claim9_zip_layout ["frame_0001.jpg"]).1,
   (claim9_zip_layout ["frame_0001.jpg"]).2.2.1 "frame_0001.jpg" (by decide)⟩

open Main in
/-- Claim C9, counterexample to the claim as stated: the report and
readme are not stored under `analysis_results/` inside the zip; they
sit at the archive root. -/
theorem claim9_not_under_analysis_results :
    ¬ ("analysis_results/analysis.json" ∈ zipEntries ["frame_0001.jpg"] ∧
       "analysis_results/README.md" ∈ zipEntries ["frame_0001.jpg"]) ∧
    "analysis.json" ∈ zipEntries ["frame_0001.jpg"] ∧
    "README.md" ∈ zipEntries ["frame_0001.jpg"] ∧
    "all_frames/frame_0001.jpg" ∈ zipEntries ["frame_0001.jpg"] := by decide

/-- Claim C10, counterexample to the claim as stated: `abc_7.jpg` does
not parse as `frame_<integer>`, yet the returned timestamp is 7/30, not
the claimed default 0.0. -/
theorem claim10_malformed_name_nonzero :
    VideoProcessor.frameIntOf "abc_7.jpg" = none ∧
    VideoProcessor.get_frame_timestamp "abc_7.jpg" = 7 / 30 ∧
    VideoProcessor.get_frame_timestamp "abc_7.jpg" ≠ 0 := by
  have hidx : VideoProcessor.frameIndexOf "abc_7.jpg" = some 7 := by decide
  have he : VideoProcessor.get_frame_timestamp "abc_7.jpg" = ((7 : Int) : ℚ) / 30 := by
    simp [VideoProcessor.get_frame_timestamp, hidx]
  refine ⟨by decide, ?_, ?_⟩
  · rw [he]; norm_num
  · rw [he]; norm_num

end VideoAnalysis
